import Mathlib

/-!
# Verification of the `find_nbt.py` NBT search tool

A shallow embedding of `scripts/find_nbt.py`: the NBT tag tree, the recursive
tag matcher `find_nbt_tags_recursive`, the coordinate parser `parse_coords`,
the per-source context extractors (`parse_player_data`, `parse_region_file`,
`parse_entity_file`, `parse_misc_nbt_file`), the orchestrator
`find_and_parse_data`, and the command-line dispatch logic, together with
theorems settling the specification claims.

The `python-nbt` library's tag objects are modelled as a closed tree type.
A scalar tag's payload is modelled as either an integer or a string; the
library's numeric tags carry no `__len__` and are always truthy, while its
string/compound/list tags expose `__len__` so that emptiness means Python
falsiness.  Container tags keep their children in `self.tags`; their `.value`
attribute stays `None`, so `str(tag.value)` on a container is `"None"`.
-/

/-- Payload of a scalar (leaf) tag.  Numeric library tags are modelled by
`vInt`; string tags by `vStr`. -/
inductive ScalarVal where
  | vInt (n : Int)
  | vStr (s : String)
deriving DecidableEq

/-- An NBT tag tree: compounds (ordered named children), lists (ordered
unnamed items), and scalar leaves.  Every tag carries the library's `.name`
attribute, which may be `None` (modelled as `none`). -/
inductive NbtTag where
  | scalar (name : Option String) (val : ScalarVal)
  | compound (name : Option String) (children : List NbtTag)
  | listTag (name : Option String) (items : List NbtTag)

/-- The `.name` attribute of a tag. -/
def NbtTag.tagName : NbtTag → Option String
  | .scalar nm _ => nm
  | .compound nm _ => nm
  | .listTag nm _ => nm

/-- Test `isinstance(tag, TAG_Compound)`. -/
def NbtTag.isCompound : NbtTag → Bool
  | .compound _ _ => true
  | _ => false

/-- Test `isinstance(tag, TAG_List)`. -/
def NbtTag.isList : NbtTag → Bool
  | .listTag _ _ => true
  | _ => false

/-- The `self.tags` sequence of a list tag (empty for other tags; only
used behind `isList` guards, mirroring the source's isinstance checks). -/
def NbtTag.items : NbtTag → List NbtTag
  | .listTag _ its => its
  | _ => []

/-- Python `str()` of a scalar payload. -/
def scalarStr : ScalarVal → String
  | .vInt n => toString n
  | .vStr s => s

/-- Python `str(tag.value)`.  Container tags keep `.value = None`, so their
stringified value is `"None"`. -/
def pyStrValue : NbtTag → String
  | .scalar _ sv => scalarStr sv
  | _ => "None"

/-- Python truthiness of a tag object: numeric tags are always truthy;
string, compound and list tags expose `__len__`, so they are falsy exactly
when empty. -/
def pyTruthy : NbtTag → Bool
  | .scalar _ (.vInt _) => true
  | .scalar _ (.vStr s) => s != ""
  | .compound _ cs => !cs.isEmpty
  | .listTag _ its => !its.isEmpty

/-- Lookup `compound.get(key)`: the first child whose `.name` equals `key`
(`None` when missing; `.get` is only reached on compound tags). -/
def pyGet (t : NbtTag) (key : String) : Option NbtTag :=
  match t with
  | .compound _ cs => cs.find? (fun ch => ch.tagName == some key)
  | _ => none

/-- Truthiness of a `.get` result: `None` is falsy, a tag by `pyTruthy`. -/
def truthyOpt (o : Option NbtTag) : Bool :=
  match o with
  | some t => pyTruthy t
  | none => false

/-- The `search_criteria` dict.  A key that is absent (or present with value
`None`, which the matcher treats identically) is modelled as `none`. -/
structure SearchCriteria where
  name : Option String
  value : Option String
deriving DecidableEq

/-- Name criterion of `find_nbt_tags_recursive`: when a criteria name is
given, the tag's own `.name` must equal it (a tag named `None` never equals
a string). -/
def nameMatches (c : SearchCriteria) (t : NbtTag) : Bool :=
  match c.name with
  | none => true
  | some n => t.tagName == some n

/-- Value criterion of `find_nbt_tags_recursive`: for compound and list tags
the comparison is skipped (`pass`), leaving `value_matches = True`; for a
scalar, `str(tag.value)` must equal the criteria value. -/
def valueMatches (c : SearchCriteria) (t : NbtTag) : Bool :=
  match c.value with
  | none => true
  | some v =>
    match t with
    | .scalar _ sv => scalarStr sv == v
    | _ => true

/-- Conjunction `name_matches and value_matches`. -/
def tagMatches (c : SearchCriteria) (t : NbtTag) : Bool :=
  nameMatches c t && valueMatches c t

/-- The reported tag name: the tag's own name when it is not `None`,
otherwise the synthetic `item_in_list_at_path_<current_path>` placeholder. -/
def reportName (t : NbtTag) (path : String) : String :=
  match t.tagName with
  | some n => n
  | none => "item_in_list_at_path_" ++ path

/-- Path extension for a compound child:
`f"{current_path}.{child.name}" if current_path and child.name else
(child.name or current_path)`. -/
def childPath (cur : String) (cn : Option String) : String :=
  match cn with
  | some s =>
    if cur ≠ "" ∧ s ≠ "" then cur ++ "." ++ s
    else if s ≠ "" then s else cur
  | none => cur

/-- The finding appended for the current tag when both criteria hold. -/
def selfFinding (c : SearchCriteria) (t : NbtTag) (path : String) :
    List (String × String × String) :=
  if tagMatches c t then [(path, reportName t path, pyStrValue t)] else []

mutual
/-- Matcher `find_nbt_tags_recursive(nbt_tag, search_criteria, current_path)`:
reports the current tag when both criteria hold, then recurses into
compound children (stored order) and list items (index order). -/
def find_nbt_tags_recursive : NbtTag → SearchCriteria → String →
    List (String × String × String)
  | .scalar nm sv, c, path => selfFinding c (.scalar nm sv) path
  | .compound nm cs, c, path =>
    selfFinding c (.compound nm cs) path ++ findCompoundChildren cs c path
  | .listTag nm its, c, path =>
    selfFinding c (.listTag nm its) path ++ findListItems its c path 0

/-- The `for child_tag in nbt_tag.tags` loop of the matcher. -/
def findCompoundChildren : List NbtTag → SearchCriteria → String →
    List (String × String × String)
  | [], _, _ => []
  | ch :: rest, c, path =>
    find_nbt_tags_recursive ch c (childPath path ch.tagName) ++
      findCompoundChildren rest c path

/-- The `for index, item_tag in enumerate(nbt_tag)` loop of the matcher. -/
def findListItems : List NbtTag → SearchCriteria → String → Nat →
    List (String × String × String)
  | [], _, _, _ => []
  | it :: rest, c, path, i =>
    find_nbt_tags_recursive it c (path ++ "[" ++ toString i ++ "]") ++
      findListItems rest c path (i + 1)
end

mutual
/-- All tag occurrences of a tree with the path each would be visited at,
in the matcher's depth-first visiting order. -/
def nodesWithPaths : NbtTag → String → List (NbtTag × String)
  | .scalar nm sv, p => [(.scalar nm sv, p)]
  | .compound nm cs, p => (.compound nm cs, p) :: nodesOfChildren cs p
  | .listTag nm its, p => (.listTag nm its, p) :: nodesOfItems its p 0

/-- Visiting order of a compound's children. -/
def nodesOfChildren : List NbtTag → String → List (NbtTag × String)
  | [], _ => []
  | ch :: rest, p =>
    nodesWithPaths ch (childPath p ch.tagName) ++ nodesOfChildren rest p

/-- Visiting order of a list's items, starting at a given index. -/
def nodesOfItems : List NbtTag → String → Nat → List (NbtTag × String)
  | [], _, _ => []
  | it :: rest, p, i =>
    nodesWithPaths it (p ++ "[" ++ toString i ++ "]") ++
      nodesOfItems rest p (i + 1)
end

/-- The finding a visited occurrence produces when reported. -/
def mkFinding (np : NbtTag × String) : String × String × String :=
  (np.2, reportName np.1 np.2, pyStrValue np.1)

/-- The findings a sequence of visited occurrences yields. -/
def findingsOf (c : SearchCriteria) : List (NbtTag × String) →
    List (String × String × String)
  | [] => []
  | np :: rest =>
    (if tagMatches c np.1 then [mkFinding np] else []) ++ findingsOf c rest

/-! ## `parse_coords` -/

/-- Python `s.split(sep)` for a single-character separator, on character
lists: `""` splits to `[""]`, empty fields are kept. -/
def pySplitChar (sep : Char) : List Char → List (List Char)
  | [] => [[]]
  | c :: rest =>
    let r := pySplitChar sep rest
    if c = sep then [] :: r
    else
      match r with
      | h :: t => (c :: h) :: t
      | [] => [[c]]

/-- Python `s.strip()` (default whitespace) on character lists. -/
def trimChars (cs : List Char) : List Char :=
  ((cs.dropWhile Char.isWhitespace).reverse.dropWhile Char.isWhitespace).reverse

/-- One iteration of the `for part in parts` loop of `parse_coords`:
split the part on `':'`; when that yields exactly a key and a value, strip
both and assign the value to the matching X/Y/Z slot; otherwise leave the
accumulated triple unchanged. -/
def coordStep (acc : String × String × String) (part : List Char) :
    String × String × String :=
  match pySplitChar ':' part with
  | [k, v] =>
    let key := String.mk (trimChars k)
    let vl := String.mk (trimChars v)
    if key = "X" then (vl, acc.2.1, acc.2.2)
    else if key = "Y" then (acc.1, vl, acc.2.2)
    else if key = "Z" then (acc.1, acc.2.1, vl)
    else acc
  | _ => acc

/-- Parser `parse_coords(coord_str)`: non-empty strings other than `"N/A"` /
`"N/A_Pos"` (case-insensitive) are split on `','` and folded through
`coordStep` from `('', '', '')`. -/
def parse_coords (coord_str : String) : String × String × String :=
  let cs := coord_str.toList
  let low := cs.map Char.toLower
  if cs ≠ [] ∧ low ≠ "n/a".toList ∧ low ≠ "n/a_pos".toList then
    (pySplitChar ',' cs).foldl coordStep ("", "", "")
  else ("", "", "")

/-! ## The block-entity path pattern of `parse_region_file`

`re.search(r'\.(?:Level\.)?(block_entities|BlockEntities|tile_entities)\[(\d+)\]', path)`
modelled as a leftmost scan over the path's characters. -/

/-- The alternation of block-entity list names, in the pattern's order. -/
def beListNames : List String := ["block_entities", "BlockEntities", "tile_entities"]

/-- Digits of `\d+` interpreted by `int()`. -/
def digitsToNat (ds : List Char) : Nat :=
  ds.foldl (fun a c => a * 10 + (c.toNat - 48)) 0

/-- Match `\[(\d+)\]` at the head of the input: `'['`, a maximal non-empty
digit run, `']'`. -/
def matchIndexAt (cs : List Char) : Option Nat :=
  match cs with
  | '[' :: rest =>
    let ds := rest.takeWhile Char.isDigit
    let rest2 := rest.dropWhile Char.isDigit
    if ds.isEmpty then none
    else
      match rest2 with
      | ']' :: _ => some (digitsToNat ds)
      | _ => none
  | _ => none

/-- Try the three list-name alternatives followed by an index at the head
of the input. -/
def matchNamesAt (cs : List Char) : Option (String × Nat) :=
  match beListNames.find? (fun n => n.toList.isPrefixOf cs) with
  | some n =>
    match matchIndexAt (cs.drop n.length) with
    | some i => some (n, i)
    | none => none
  | none => none

/-- Try the whole pattern anchored at the head of the input: a literal
`'.'`, the greedy optional `Level.`, then a list name and index. -/
def matchPatternAt (cs : List Char) : Option (String × Nat) :=
  match cs with
  | '.' :: rest =>
    let withLevel :=
      if "Level.".toList.isPrefixOf rest then matchNamesAt (rest.drop 6)
      else none
    match withLevel with
    | some r => some r
    | none => matchNamesAt rest
  | _ => none

/-- Leftmost search: scan positions left to right. -/
def searchPatternFrom : List Char → Option (String × Nat)
  | [] => none
  | c :: rest =>
    match matchPatternAt (c :: rest) with
    | some r => some r
    | none => searchPatternFrom rest

/-- The `re.search` call on a finding's NBT path, yielding the captured
list name and element index of the leftmost occurrence. -/
def regexSearchBE (path : String) : Option (String × Nat) :=
  searchPatternFrom path.toList

/-! ## Coordinate recovery of `parse_region_file` -/

/-- Lines 217-224: the block-entity list candidate — the chunk root's own
entry when truthy, else the entry of a truthy `Level` compound. -/
def beCandidate (chunk : NbtTag) (bn : String) : Option NbtTag :=
  if truthyOpt (pyGet chunk bn) then pyGet chunk bn
  else
    match pyGet chunk "Level" with
    | some lvl =>
      if pyTruthy lvl && lvl.isCompound && truthyOpt (pyGet lvl bn) then pyGet lvl bn
      else none
    | none => none

/-- Lines 231-235: the `x`/`y`/`z` children of the block entity.  Every tag
object has a `.value` attribute, so the guard is presence plus truthiness;
the formatted string uses `str()` of each `.value` (`"None"` for
containers). -/
def coordsOfBlockEntity (be : NbtTag) : Option String :=
  match pyGet be "x", pyGet be "y", pyGet be "z" with
  | some xt, some yt, some zt =>
    if pyTruthy xt && pyTruthy yt && pyTruthy zt then
      some ("X:" ++ pyStrValue xt ++ ", Y:" ++ pyStrValue yt ++ ", Z:" ++ pyStrValue zt)
    else none
  | _, _, _ => none

/-- Lines 205-236: block coordinates for one finding.  A non-compound chunk
root raises `AttributeError` at `.get`, silently caught (`"N/A"`); every
other failure along the way also leaves `"N/A"`. -/
def extractBlockCoords (chunk : NbtTag) (path : String) : String :=
  match regexSearchBE path with
  | none => "N/A"
  | some (bn, i) =>
    if chunk.isCompound then
      match beCandidate chunk bn with
      | some (NbtTag.listTag _ its) =>
        match its.get? i with
        | some be =>
          if be.isCompound then
            match coordsOfBlockEntity be with
            | some s => s
            | none => "N/A"
          else "N/A"
        | none => "N/A"
      | _ => "N/A"
    else "N/A"

/-! ## `parse_region_file` -/

/-- The 32×32 chunk grid, in the source's `for x: for z:` order. -/
def gridCells : List (Nat × Nat) :=
  ((List.range 32).map (fun x => (List.range 32).map (fun z => (x, z)))).flatten

/-- Records produced from one decoded chunk: every matcher finding, kept,
with the chunk label and its (possibly unavailable) block coordinates. -/
def chunkRecords (fileName : String) (chunk : NbtTag) (x z : Nat)
    (c : SearchCriteria) : List (String × String × String × String × String × String) :=
  let ccs := "Chunk[" ++ toString x ++ "," ++ toString z ++ "]"
  (find_nbt_tags_recursive chunk c ccs).map
    (fun f => (fileName, ccs, extractBlockCoords chunk f.1, f.1, f.2.1, f.2.2))

/-- Extractor `parse_region_file`: scan all 1024 cells; absent cells are skipped. -/
def parse_region_file (fileName : String) (cells : Nat → Nat → Option NbtTag)
    (c : SearchCriteria) : List (String × String × String × String × String × String) :=
  (gridCells.map (fun xz =>
    match cells xz.1 xz.2 with
    | none => []
    | some chunk => chunkRecords fileName chunk xz.1 xz.2 c)).flatten

/-! ## `parse_entity_file`

Entity position formatting uses `f"{v:.2f}"`.  On an integer value this
yields the decimal digits followed by `".00"`; on a container element the
`.value` attribute is `None` and formatting raises `TypeError`, which the
handler at line 298 catches; on a string value formatting raises
`ValueError`, which that handler does *not* catch, aborting the whole file
scan (the outer handler returns the findings accumulated so far).  In the
list-rooted branch the bare `except` catches everything. -/

/-- Result of formatting one `Pos` element. -/
inductive PosFmt where
  | ok (s : String)
  | caught
  | escape

/-- Formatting of one `Pos` element by the `.2f` conversion. -/
def fmt2fOf : NbtTag → PosFmt
  | .scalar _ (.vInt n) => .ok (toString n ++ ".00")
  | .scalar _ (.vStr _) => .escape
  | _ => .caught

/-- Formatting of a 3-element `Pos` list, left to right; the first failing
element decides the outcome. -/
def posFormat : List NbtTag → PosFmt
  | [a, b, c] =>
    match fmt2fOf a with
    | .ok sa =>
      match fmt2fOf b with
      | .ok sb =>
        match fmt2fOf c with
        | .ok sc => .ok ("X:" ++ sa ++ ", Y:" ++ sb ++ ", Z:" ++ sc)
        | r => r
      | r => r
    | r => r
  | _ => .caught

/-- Lines 291-298 (compound-rooted branch): entity coordinates and whether
an uncaught `ValueError` escaped. -/
def posCoordsMain (e : NbtTag) : String × Bool :=
  match pyGet e "Pos" with
  | some pos =>
    if pyTruthy pos && pos.isList && (pos.items.length == 3) then
      match posFormat pos.items with
      | .ok s => (s, false)
      | .caught => ("N/A_Pos", false)
      | .escape => ("N/A_Pos", true)
    else ("N/A_Pos", false)
  | none => ("N/A_Pos", false)

/-- Lines 313-319 (list-rooted branch): same extraction but behind a bare
`except`, so nothing escapes. -/
def posCoordsListOf (e : NbtTag) : String :=
  match pyGet e "Pos" with
  | some pos =>
    if pyTruthy pos && pos.isList && (pos.items.length == 3) then
      match posFormat pos.items with
      | .ok s => s
      | _ => "N/A_Pos"
    else "N/A_Pos"
  | none => "N/A_Pos"

/-- Lines 286-289: entity type from the `id` child (every tag has a
`.value` attribute, so the guard is presence plus truthiness). -/
def entityTypeOf (e : NbtTag) : String :=
  match pyGet e "id" with
  | some idt => if pyTruthy idt then pyStrValue idt else "Unknown Entity Type"
  | none => "Unknown Entity Type"

/-- Line 312: entity type in the list-rooted branch (different default). -/
def entityTypeListOf (e : NbtTag) : String :=
  match pyGet e "id" with
  | some idt => if pyTruthy idt then pyStrValue idt else "Unknown"
  | none => "Unknown"

/-- Lines 283-304: the per-entity loop over a truthy `Entities` list.
Returns the records plus an escape flag; an escape aborts the loop before
the escaping entity contributes any record. -/
def processEntitiesMain (fileName sector : String) (c : SearchCriteria) :
    Nat → List NbtTag →
    List (String × String × String × String × String × String × String) × Bool
  | _, [] => ([], false)
  | i, e :: rest =>
    match e with
    | .compound nm cs =>
      let et := entityTypeOf (.compound nm cs)
      let pc := posCoordsMain (.compound nm cs)
      if pc.2 then ([], true)
      else
        let fs := (find_nbt_tags_recursive (.compound nm cs) c
            (sector ++ ".Entities[" ++ toString i ++ "]")).map
          (fun f => (fileName, sector, et, pc.1, f.1, f.2.1, f.2.2))
        let r := processEntitiesMain fileName sector c (i + 1) rest
        (fs ++ r.1, r.2)
    | _ => processEntitiesMain fileName sector c (i + 1) rest

/-- Lines 309-323: the per-entity loop when the sector root is a list. -/
def processEntitiesList (fileName sector : String) (c : SearchCriteria) :
    Nat → List NbtTag →
    List (String × String × String × String × String × String × String)
  | _, [] => []
  | i, e :: rest =>
    (match e with
     | .compound nm cs =>
       (find_nbt_tags_recursive (.compound nm cs) c
           (sector ++ "[" ++ toString i ++ "]")).map
         (fun f => (fileName, sector, entityTypeListOf (.compound nm cs),
                    posCoordsListOf (.compound nm cs), f.1, f.2.1, f.2.2))
     | _ => []) ++ processEntitiesList fileName sector c (i + 1) rest

/-- Lines 305-308: the raw-sector fallback records. -/
def rawSectorRecords (fileName sector : String) (c : SearchCriteria)
    (root : NbtTag) :
    List (String × String × String × String × String × String × String) :=
  (find_nbt_tags_recursive root c sector).map
    (fun f => (fileName, sector, "RawSectorSearch", "N/A", f.1, f.2.1, f.2.2))

/-- Truthy-list test of line 282: `entities_list_tag and isinstance(..., TAG_List)`. -/
def truthyList (o : Option NbtTag) : Bool :=
  match o with
  | some el => pyTruthy el && el.isList
  | none => false

/-- Lines 275-323: handling of one decoded sector root. -/
def processSector (fileName : String) (c : SearchCriteria) (x z : Nat)
    (root : NbtTag) :
    List (String × String × String × String × String × String × String) × Bool :=
  let sector := "Sector[" ++ toString x ++ "," ++ toString z ++ "]"
  match root with
  | .compound nm cs =>
    match pyGet (.compound nm cs) "Entities" with
    | some el =>
      if pyTruthy el && el.isList then
        processEntitiesMain fileName sector c 0 el.items
      else (rawSectorRecords fileName sector c (.compound nm cs), false)
    | none => (rawSectorRecords fileName sector c (.compound nm cs), false)
  | .listTag _ its => (processEntitiesList fileName sector c 0 its, false)
  | .scalar _ _ => ([], false)

/-- Extractor `parse_entity_file`: scan all 1024 sector cells in order; absent cells
are skipped; an escaped `ValueError` aborts the remaining cells and the
findings accumulated so far are returned. -/
def parse_entity_file (fileName : String) (cells : Nat → Nat → Option NbtTag)
    (c : SearchCriteria) :
    List (String × String × String × String × String × String × String) :=
  (gridCells.foldl (fun acc xz =>
    if acc.2 then acc
    else
      match cells xz.1 xz.2 with
      | none => acc
      | some root =>
        let r := processSector fileName c xz.1 xz.2 root
        (acc.1 ++ r.1, r.2))
    (([] : List (String × String × String × String × String × String × String)), false)).1

/-! ## `parse_player_data`, `parse_misc_nbt_file`, orchestrator -/

/-- Test `s.startswith(p)`. -/
def pyStartsWith (s p : String) : Bool := p.toList.isPrefixOf s.toList

/-- Python `s.replace(old, new)` (all occurrences, left to right), with the
list length as structural fuel. -/
def replaceAllAux : Nat → List Char → List Char → List Char → List Char
  | 0, _, _, _ => []
  | Nat.succ n, cs, pat, sub =>
    match cs with
    | [] => []
    | c :: rest =>
      if pat ≠ [] ∧ pat.isPrefixOf cs then
        sub ++ replaceAllAux n (cs.drop pat.length) pat sub
      else c :: replaceAllAux n rest pat sub

/-- Replacement `file_name.replace(pat, sub)` on strings. -/
def pyReplaceAll (s pat sub : String) : String :=
  String.mk (replaceAllAux s.toList.length s.toList pat.toList sub.toList)

/-- Lines 158-161: location classification of a player finding's path. -/
def playerLocCategory (path : String) : String :=
  if pyStartsWith path "root.Inventory" then "Player Inventory"
  else if pyStartsWith path "root.EnderItems" then "Ender Chest"
  else "Player Data (Other)"

/-- Extractor `parse_player_data(file_path, criteria)`: decode failures yield no
findings; otherwise every matcher finding from path `"root"` is labelled
with the player id (file name minus `.dat`) and a location category. -/
def parse_player_data (fileName : String) (content : Option NbtTag)
    (c : SearchCriteria) : List (String × String × String × String × String) :=
  match content with
  | none => []
  | some t =>
    let pid := pyReplaceAll fileName ".dat" ""
    (find_nbt_tags_recursive t c "root").map
      (fun f => (pid, playerLocCategory f.1, f.1, f.2.1, f.2.2))

/-- Outcome of opening one miscellaneous `.dat` file. -/
inductive MiscStatus where
  | absent
  | malformed
  | okTree (t : NbtTag)

/-- Line 350: the traversal root path of a misc file,
`nbt_file.name or "root"`. -/
def miscRootPath (t : NbtTag) : String :=
  match t.tagName with
  | some s => if s = "" then "root" else s
  | none => "root"

/-- Extractor `parse_misc_nbt_file`: missing or malformed files yield no findings. -/
def parse_misc_nbt_file (filePath : String) (st : MiscStatus)
    (c : SearchCriteria) : List (String × String × String × String) :=
  match st with
  | .okTree t =>
    (find_nbt_tags_recursive t c (miscRootPath t)).map
      (fun f => (filePath, f.1, f.2.1, f.2.2))
  | _ => []

/-- One listed player `.dat` file: its base name and decoded tree
(`none` for a decode failure). -/
structure PlayerFile where
  fileName : String
  content : Option NbtTag

/-- One listed `.mca` file: its base name and per-cell decode results. -/
structure McaFile where
  fileName : String
  cells : Nat → Nat → Option NbtTag

/-- The world directory as the scan sees it: file listings per source in
listing order, and the status of the three fixed miscellaneous files. -/
structure World where
  worldDir : String
  playerFiles : List PlayerFile
  regionFiles : List McaFile
  entityFiles : List McaFile
  miscStatus : String → MiscStatus

/-- One uniform CSV report record (the dict of lines 423-428 etc.). -/
structure ReportRecord where
  data_source : String
  file_name : String
  player_id_or_entity_type : String
  location_category : String
  coord_x : String
  coord_y : String
  coord_z : String
  nbt_path_to_item : String
  found_item_name_tag : String
  found_item_value : String
  raw_nbt_path : String
deriving DecidableEq

/-- Lines 401-403: build the criteria dict; an empty-string or `None`
parameter is falsy and inserts no key. -/
def mkCriteria (n v : Option String) : SearchCriteria :=
  ⟨match n with
   | some s => if s = "" then none else some s
   | none => none,
   match v with
   | some s => if s = "" then none else some s
   | none => none⟩

/-- Lines 411-429: player-data records, in file-listing order. -/
def playerRecordsOf (w : World) (c : SearchCriteria) : List ReportRecord :=
  (w.playerFiles.map (fun pf =>
    (parse_player_data pf.fileName pf.content c).map
      (fun r =>
        { data_source := "PlayerData", file_name := pf.fileName,
          player_id_or_entity_type := r.1, location_category := r.2.1,
          coord_x := "", coord_y := "", coord_z := "",
          nbt_path_to_item := r.2.2.1, found_item_name_tag := r.2.2.2.1,
          found_item_value := r.2.2.2.2, raw_nbt_path := r.2.2.1 }))).flatten

/-- Lines 433-454: region-file records, in file-listing order. -/
def regionRecordsOf (w : World) (c : SearchCriteria) : List ReportRecord :=
  (w.regionFiles.map (fun rf =>
    (parse_region_file rf.fileName rf.cells c).map
      (fun r =>
        let xyz := parse_coords r.2.2.1
        { data_source := "RegionFile_BlockEntity", file_name := r.1,
          player_id_or_entity_type := "",
          location_category := "BlockEntity in " ++ r.2.1,
          coord_x := xyz.1, coord_y := xyz.2.1, coord_z := xyz.2.2,
          nbt_path_to_item := r.2.2.2.1, found_item_name_tag := r.2.2.2.2.1,
          found_item_value := r.2.2.2.2.2, raw_nbt_path := r.2.2.2.1 }))).flatten

/-- Lines 456-477: entity-file records, in file-listing order. -/
def entityRecordsOf (w : World) (c : SearchCriteria) : List ReportRecord :=
  (w.entityFiles.map (fun ef =>
    (parse_entity_file ef.fileName ef.cells c).map
      (fun r =>
        let xyz := parse_coords r.2.2.2.1
        { data_source := "EntityFile_Entity", file_name := r.1,
          player_id_or_entity_type := r.2.2.1,
          location_category := "Entity in " ++ r.2.1,
          coord_x := xyz.1, coord_y := xyz.2.1, coord_z := xyz.2.2,
          nbt_path_to_item := r.2.2.2.2.1, found_item_name_tag := r.2.2.2.2.2.1,
          found_item_value := r.2.2.2.2.2.2, raw_nbt_path := r.2.2.2.2.1 }))).flatten

/-- Lines 481-485: the fixed miscellaneous file list, in insertion order. -/
def misc_data_files_config : List String :=
  ["DIM-1/data/chunks.dat", "DIM1/data/chunks.dat", "data/WorldUUID.dat"]

/-- Lines 486-494: the console-only miscellaneous findings
(`temp_misc_findings_console`). -/
def miscConsoleOf (w : World) (c : SearchCriteria) :
    List (String × String × String × String) :=
  (misc_data_files_config.map (fun sfx =>
    parse_misc_nbt_file (w.worldDir ++ "/" ++ sfx) (w.miscStatus sfx) c)).flatten

/-- Orchestrator `find_and_parse_data`: the master findings list accumulated in source
order (players, then regions, then entities) — the first component, which
is what line 531 hands to `write_findings_to_csv` — and the console-only
misc findings as the second component. -/
def find_and_parse_data (w : World) (search_name_param search_value_param : Option String) :
    List ReportRecord × List (String × String × String × String) :=
  let c := mkCriteria search_name_param search_value_param
  (playerRecordsOf w c ++ regionRecordsOf w c ++ entityRecordsOf w c,
   miscConsoleOf w c)

/-! ## Command-line dispatch (`__main__`, lines 533-572) -/

/-- The parsed command-line arguments; `--name`/`--value` default to `None`. -/
structure Args where
  world_dir : String
  name : Option String
  value : Option String
  output_csv : String

/-- What `__main__` decides to do. -/
inductive RunDecision where
  | usageError
  | runScan (searchName : Option String) (searchValue : Option String)
deriving DecidableEq

/-- Lines 549-568: with both `--name` and `--value` omitted, all-default
other options trigger the demo query, otherwise a usage error; any supplied
value (even the empty string) starts the scan with it. -/
def mainDispatch (a : Args) : RunDecision :=
  match a.name, a.value with
  | none, none =>
    if a.world_dir = "sample_world" ∧ a.output_csv = "nbt_findings.csv" then
      .runScan (some "id") (some "minecraft:elytra")
    else .usageError
  | _, _ => .runScan a.name a.value

/-- Per-node reporting test under a value-only criteria set, as the code
implements it: scalars are compared by canonical string, containers pass. -/
def valueOnlyReported (v : String) (t : NbtTag) : Bool :=
  match t with
  | .scalar _ sv => scalarStr sv == v
  | _ => true

/-- Is the effective criteria set fully empty? -/
def criteriaEmpty (c : SearchCriteria) : Bool := c.name.isNone && c.value.isNone

/-- A world with no player, region or entity files, whose only data is a
miscellaneous `WorldUUID.dat` holding a scalar `id` tag. -/
def miscOnlyWorld : World where
  worldDir := "w"
  playerFiles := []
  regionFiles := []
  entityFiles := []
  miscStatus := fun s =>
    if s = "data/WorldUUID.dat" then MiscStatus.okTree (.scalar (some "id") (.vStr "x"))
    else MiscStatus.absent

/-! ## Characterization of the matcher -/

theorem findingsOf_append (c : SearchCriteria) (l₁ l₂ : List (NbtTag × String)) :
    findingsOf c (l₁ ++ l₂) = findingsOf c l₁ ++ findingsOf c l₂ := by
  induction l₁ with
  | nil => simp [findingsOf]
  | cons np rest ih => simp [findingsOf, ih]

mutual
theorem find_eq_findingsOf : ∀ (t : NbtTag) (c : SearchCriteria) (p : String),
    find_nbt_tags_recursive t c p = findingsOf c (nodesWithPaths t p)
  | .scalar nm sv, c, p => by
    cases h : tagMatches c (.scalar nm sv) <;>
      simp [find_nbt_tags_recursive, nodesWithPaths, findingsOf, selfFinding,
        mkFinding, h]
  | .compound nm cs, c, p => by
    have ih := findChildren_eq_findingsOf cs c p
    cases h : tagMatches c (.compound nm cs) <;>
      simp [find_nbt_tags_recursive, nodesWithPaths, findingsOf, selfFinding,
        mkFinding, h, ih]
  | .listTag nm its, c, p => by
    have ih := findItems_eq_findingsOf its c p 0
    cases h : tagMatches c (.listTag nm its) <;>
      simp [find_nbt_tags_recursive, nodesWithPaths, findingsOf, selfFinding,
        mkFinding, h, ih]

theorem findChildren_eq_findingsOf : ∀ (ts : List NbtTag) (c : SearchCriteria) (p : String),
    findCompoundChildren ts c p = findingsOf c (nodesOfChildren ts p)
  | [], c, p => by simp [findCompoundChildren, nodesOfChildren, findingsOf]
  | ch :: rest, c, p => by
    have ih₁ := find_eq_findingsOf ch c (childPath p ch.tagName)
    have ih₂ := findChildren_eq_findingsOf rest c p
    simp [findCompoundChildren, nodesOfChildren, findingsOf_append, ih₁, ih₂]

theorem findItems_eq_findingsOf : ∀ (ts : List NbtTag) (c : SearchCriteria) (p : String) (i : Nat),
    findListItems ts c p i = findingsOf c (nodesOfItems ts p i)
  | [], c, p, i => by simp [findListItems, nodesOfItems, findingsOf]
  | it :: rest, c, p, i => by
    have ih₁ := find_eq_findingsOf it c (p ++ "[" ++ toString i ++ "]")
    have ih₂ := findItems_eq_findingsOf rest c p (i + 1)
    simp [findListItems, nodesOfItems, findingsOf_append, ih₁, ih₂]
end

theorem findingsOf_eq_filter_map (c : SearchCriteria) (l : List (NbtTag × String)) :
    findingsOf c l = (l.filter (fun np => tagMatches c np.1)).map mkFinding := by
  induction l with
  | nil => simp [findingsOf]
  | cons np rest ih =>
    cases h : tagMatches c np.1 <;> simp [findingsOf, List.filter_cons, h, ih]

/-! ## Claim C4 -/

/-- Claim C4. For every tag tree, criteria and starting path, the recursive
search is exhaustive and exactly-once: its result is exactly the sequence of
findings of those visited occurrences (the root included, at any depth)
satisfying the name and value predicates — the value predicate skipping the
comparison on containers — in depth-first visiting order; traversal never
stops at a match, and matches nested inside matching containers are kept. -/
theorem c4_search_exhaustive_exactly_once (t : NbtTag) (c : SearchCriteria) (p : String) :
    find_nbt_tags_recursive t c p =
      ((nodesWithPaths t p).filter (fun np => tagMatches c np.1)).map mkFinding :=
  (find_eq_findingsOf t c p).trans (findingsOf_eq_filter_map c _)

/-! ## Claim C1 -/

theorem tagMatches_valueOnly (v : String) (t : NbtTag) :
    tagMatches ⟨none, some v⟩ t = valueOnlyReported v t := by
  cases t <;> simp [tagMatches, nameMatches, valueMatches, valueOnlyReported]

/-- Claim C1, counterexample. Under criteria with a value but no name, a tree
consisting of a single childless compound — which contains no scalar at all,
let alone one whose string form equals the criteria value — is itself
reported as a match: the claim that only scalars with equal string form are
reported, and that no compound or list node is ever reported on a value-only
search, is false. -/
theorem c1_counterexample :
    (find_nbt_tags_recursive (.compound (some "c") []) ⟨none, some "zzz"⟩ "root").map
        (fun f => (f.1, f.2.1)) = [("root", "c")] := by decide

/-- Claim C1, amended. Under a value-only criteria set the search reports
exactly: every scalar occurrence whose canonical string form equals the
criteria value, and — because the container comparison is skipped with the
flag left `True` — every compound and every list occurrence
unconditionally. -/
theorem c1_amended_value_only_matching (t : NbtTag) (v : String) (p : String) :
    find_nbt_tags_recursive t ⟨none, some v⟩ p =
      ((nodesWithPaths t p).filter (fun np => valueOnlyReported v np.1)).map mkFinding := by
  rw [find_eq_findingsOf, findingsOf_eq_filter_map]
  exact congrArg (List.map mkFinding)
    (List.filter_congr (fun np _ => tagMatches_valueOnly v np.1))

/-! ## Claim C5 -/

theorem findChildren_eq_flatten (ts : List NbtTag) (c : SearchCriteria) (p : String) :
    findCompoundChildren ts c p =
      (ts.map (fun ch => find_nbt_tags_recursive ch c (childPath p ch.tagName))).flatten := by
  induction ts with
  | nil => simp [findCompoundChildren]
  | cons ch rest ih => simp [findCompoundChildren, ih]

theorem findItems_eq_flatten (ts : List NbtTag) (c : SearchCriteria) (p : String) (i : Nat) :
    findListItems ts c p i =
      ((ts.enumFrom i).map
        (fun ic => find_nbt_tags_recursive ic.2 c (p ++ "[" ++ toString ic.1 ++ "]"))).flatten := by
  induction ts generalizing i with
  | nil => simp [findListItems]
  | cons it rest ih => simp [findListItems, List.enumFrom, ih]

/-- Claim C5. Compound children are visited in stored order and list items in
index order `0..n-1`, with the results concatenated in that order (no
reordering); a compound child with a non-empty name extends a non-empty
current path by `.childName`, and an empty current path by just
`childName`; a list item at index `i` extends the path by `[i]`. -/
theorem c5_traversal_order :
    (∀ (c : SearchCriteria) (nm : Option String) (cs : List NbtTag) (p : String),
      find_nbt_tags_recursive (.compound nm cs) c p =
        selfFinding c (.compound nm cs) p ++
          (cs.map (fun ch => find_nbt_tags_recursive ch c (childPath p ch.tagName))).flatten) ∧
    (∀ (c : SearchCriteria) (nm : Option String) (its : List NbtTag) (p : String),
      find_nbt_tags_recursive (.listTag nm its) c p =
        selfFinding c (.listTag nm its) p ++
          (its.enum.map
            (fun ic => find_nbt_tags_recursive ic.2 c (p ++ "[" ++ toString ic.1 ++ "]"))).flatten) ∧
    (∀ (cur s : String), cur ≠ "" → s ≠ "" → childPath cur (some s) = cur ++ "." ++ s) ∧
    (∀ s : String, s ≠ "" → childPath "" (some s) = s) := by
  refine ⟨?_, ?_, ?_, ?_⟩
  · intro c nm cs p
    simp [find_nbt_tags_recursive, findChildren_eq_flatten]
  · intro c nm its p
    simp [find_nbt_tags_recursive, findItems_eq_flatten, List.enum]
  · intro cur s h1 h2
    simp [childPath, h1, h2]
  · intro s h
    simp [childPath, h]

/-- Witness for C5 at concrete inputs. -/
theorem c5_traversal_order_witness :
    childPath "root" (some "Inventory") = "root" ++ "." ++ "Inventory" ∧
    childPath "" (some "Data") = "Data" :=
  ⟨c5_traversal_order.2.2.1 "root" "Inventory" (by decide) (by decide),
   c5_traversal_order.2.2.2 "Data" (by decide)⟩

/-! ## Claim C9 -/

/-- Claim C9, counterexample. A scalar whose *declared* name is the empty
string (the usual name of an NBT file's root tag) is reported with the empty
string as its name, so the reported name of a match is not always non-empty:
the placeholder is substituted only when the name is `None`. -/
theorem c9_counterexample :
    find_nbt_tags_recursive (.scalar (some "") (.vStr "x")) ⟨none, some "x"⟩ "root" =
      [("root", "", "x")] := by decide

/-- Claim C9, amended. A matching node whose name is `None` is reported first,
under the synthetic name `item_in_list_at_path_<currentPath>`; the reported
name is never null (it is a total string).  (A node with a *declared* empty
name, however, is reported under that empty name.) -/
theorem c9_amended_unnamed_placeholder (t : NbtTag) (c : SearchCriteria) (p : String)
    (h1 : t.tagName = none) (h2 : tagMatches c t = true) :
    ∃ rest, find_nbt_tags_recursive t c p =
      (p, "item_in_list_at_path_" ++ p, pyStrValue t) :: rest := by
  cases t with
  | scalar nm sv =>
    refine ⟨[], ?_⟩
    have hnm : nm = none := h1
    subst hnm
    simp [find_nbt_tags_recursive, selfFinding, h2, reportName, NbtTag.tagName]
  | compound nm cs =>
    refine ⟨findCompoundChildren cs c p, ?_⟩
    have hnm : nm = none := h1
    subst hnm
    simp [find_nbt_tags_recursive, selfFinding, h2, reportName, NbtTag.tagName]
  | listTag nm its =>
    refine ⟨findListItems its c p 0, ?_⟩
    have hnm : nm = none := h1
    subst hnm
    simp [find_nbt_tags_recursive, selfFinding, h2, reportName, NbtTag.tagName]

/-- Witness for C9 at a concrete unnamed scalar. -/
theorem c9_amended_unnamed_placeholder_witness :
    ∃ rest, find_nbt_tags_recursive (.scalar none (.vStr "q")) ⟨none, none⟩ "root[0]" =
      ("root[0]", "item_in_list_at_path_" ++ "root[0]",
        pyStrValue (.scalar none (.vStr "q"))) :: rest :=
  c9_amended_unnamed_placeholder (.scalar none (.vStr "q")) ⟨none, none⟩ "root[0]" rfl rfl

/-! ## Claim C10 -/

theorem self_mem_nodesWithPaths (t : NbtTag) (p : String) :
    (t, p) ∈ nodesWithPaths t p := by
  cases t <;> simp [nodesWithPaths]

/-- Claim C10. A compound child whose name is absent or empty is traversed
with the parent's non-empty path unchanged — no `.` segment is appended —
so inside a one-child compound both the parent occurrence and the child
occurrence carry the very same path string, and path strings do not
uniquely identify nodes. -/
theorem c10_unnamed_child_keeps_path (cur : String) (cn : Option String)
    (h : cur ≠ "") (h2 : cn = none ∨ cn = some "") :
    childPath cur cn = cur ∧
    ∀ (nm : Option String) (ch : NbtTag), ch.tagName = cn →
      (ch, cur) ∈ nodesWithPaths (NbtTag.compound nm [ch]) cur ∧
      (NbtTag.compound nm [ch], cur) ∈ nodesWithPaths (NbtTag.compound nm [ch]) cur := by
  have hcp : childPath cur cn = cur := by
    rcases h2 with h2 | h2 <;> subst h2 <;> simp [childPath]
  refine ⟨hcp, fun nm ch hch => ⟨?_, ?_⟩⟩
  · have : nodesWithPaths (NbtTag.compound nm [ch]) cur =
        (NbtTag.compound nm [ch], cur) ::
          (nodesWithPaths ch (childPath cur ch.tagName) ++ []) := by
      simp [nodesWithPaths, nodesOfChildren]
    rw [this, hch, hcp]
    exact List.mem_cons_of_mem _ (by simpa using self_mem_nodesWithPaths ch cur)
  · exact self_mem_nodesWithPaths _ cur

/-- Witness for C10 at a concrete unnamed child. -/
theorem c10_unnamed_child_keeps_path_witness :
    childPath "root" none = "root" :=
  (c10_unnamed_child_keeps_path "root" none (by decide) (Or.inl rfl)).1

/-! ## Claim C8 -/

/-- Claim C8. `parse_coords` maps `"X:10,Y:64,Z:120"` to `("10","64","120")`,
maps `"N/A"` and `""` to `("","","")`, and malformed input never raises:
a part without exactly one colon (here the colon-less `"X10"`) is skipped,
leaving the corresponding field as the empty string. -/
theorem c8_parse_coords_behaviour :
    parse_coords "X:10,Y:64,Z:120" = ("10", "64", "120") ∧
    parse_coords "N/A" = ("", "", "") ∧
    parse_coords "" = ("", "", "") ∧
    parse_coords "X10,Y:64,Z:120" = ("", "64", "120") ∧
    (∀ (acc : String × String × String) (part : List Char),
      (pySplitChar ':' part).length ≠ 2 → coordStep acc part = acc) := by
  refine ⟨by decide, by decide, by decide, by decide, ?_⟩
  intro acc part h
  unfold coordStep
  split
  · next k v heq => exact absurd (by rw [heq]; rfl) h
  · rfl

/-- Witness for C8's universally quantified conjunct at a concrete
colon-less part. -/
theorem c8_parse_coords_behaviour_witness :
    coordStep ("a", "b", "cc") "X10".toList = ("a", "b", "cc") :=
  c8_parse_coords_behaviour.2.2.2.2 ("a", "b", "cc") "X10".toList (by decide)

/-! ## Claim C3 -/

/-- Claim C3, counterexample. An invocation that passes `--name ""` (with
`--value` omitted and a non-default world directory) has a fully empty
effective criteria set — the orchestrator's truthiness test discards the
empty string — yet `__main__` does not report a usage error: it starts the
scan, which then traverses every data source with the empty criteria set,
printing only a warning. -/
theorem c3_counterexample :
    mainDispatch ⟨"custom_world", some "", none, "nbt_findings.csv"⟩ =
      .runScan (some "") none ∧
    criteriaEmpty (mkCriteria (some "") none) = true := by
  exact ⟨rfl, rfl⟩

/-- Claim C3, amended. The dispatcher rejects exactly the invocations in which
*both* criteria flags are omitted (`None`) and some other option differs
from its default; with both omitted and all defaults it substitutes the demo
query, and any explicitly supplied value — the empty string included — makes
it start the scan with the supplied parameters, even though the resulting
effective criteria set may be empty. -/
theorem c3_amended_dispatch (a : Args) :
    (mainDispatch a = .usageError ↔
      a.name = none ∧ a.value = none ∧
        ¬(a.world_dir = "sample_world" ∧ a.output_csv = "nbt_findings.csv")) ∧
    (a.name = none → a.value = none →
      a.world_dir = "sample_world" → a.output_csv = "nbt_findings.csv" →
      mainDispatch a = .runScan (some "id") (some "minecraft:elytra")) ∧
    (∀ s, a.name = some s → mainDispatch a = .runScan a.name a.value) := by
  obtain ⟨wd, n, v, oc⟩ := a
  refine ⟨?_, ?_, ?_⟩
  · cases n <;> cases v <;> simp [mainDispatch] <;> split <;> simp_all
  · intro hn hv hw ho
    subst hn; subst hv
    simp [mainDispatch]
    exact ⟨hw, ho⟩
  · intro s hn
    subst hn
    cases v <;> simp [mainDispatch]

/-- Witness for C3's amended dispatch rules at concrete invocations. -/
theorem c3_amended_dispatch_witness :
    mainDispatch ⟨"sample_world", none, none, "nbt_findings.csv"⟩ =
      .runScan (some "id") (some "minecraft:elytra") ∧
    mainDispatch ⟨"custom_world", some "id", none, "out.csv"⟩ =
      .runScan (some "id") none :=
  ⟨(c3_amended_dispatch ⟨"sample_world", none, none, "nbt_findings.csv"⟩).2.1
      rfl rfl rfl rfl,
   (c3_amended_dispatch ⟨"custom_world", some "id", none, "out.csv"⟩).2.2 "id" rfl⟩

/-! ## Claim C2 -/

/-- Claim C2, counterexample. Scanning `miscOnlyWorld` for name `id` produces
a miscellaneous finding, yet the master findings list handed to the report
writer is empty: misc findings are kept in the console-only list and are
never merged into the sequence given to `write_findings_to_csv`, contrary
to the claim that they appear in it after the entity findings. -/
theorem c2_counterexample :
    find_and_parse_data miscOnlyWorld (some "id") none =
      ([], [("w/data/WorldUUID.dat", "id", "id", "x")]) := by decide

/-- Claim C2, amended. The sequence handed to the report writer is exactly the
player records followed by the region records followed by the entity records
(each in file-listing then traversal order); every record in it stems from
one of those three sources.  Miscellaneous-file findings are collected in a
separate console-only sequence and are not part of the written report. -/
theorem c2_amended_master_order (w : World) (n v : Option String) :
    (find_and_parse_data w n v).1 =
      playerRecordsOf w (mkCriteria n v) ++ regionRecordsOf w (mkCriteria n v) ++
        entityRecordsOf w (mkCriteria n v) ∧
    (find_and_parse_data w n v).2 = miscConsoleOf w (mkCriteria n v) ∧
    ((find_and_parse_data w n v).1.all
      (fun r => r.data_source == "PlayerData" ||
        r.data_source == "RegionFile_BlockEntity" ||
        r.data_source == "EntityFile_Entity")) = true := by
  refine ⟨rfl, rfl, ?_⟩
  show ((playerRecordsOf w (mkCriteria n v) ++ regionRecordsOf w (mkCriteria n v) ++
    entityRecordsOf w (mkCriteria n v)).all _) = true
  rw [List.all_eq_true]
  intro r hr
  rw [List.append_assoc, List.mem_append] at hr
  rcases hr with hr | hr
  · simp only [playerRecordsOf, List.mem_flatten, List.mem_map] at hr
    obtain ⟨l, ⟨pf, _, rfl⟩, hrl⟩ := hr
    simp only [List.mem_map] at hrl
    obtain ⟨f, _, rfl⟩ := hrl
    rfl
  · rw [List.mem_append] at hr
    rcases hr with hr | hr
    · simp only [regionRecordsOf, List.mem_flatten, List.mem_map] at hr
      obtain ⟨l, ⟨rf, _, rfl⟩, hrl⟩ := hr
      simp only [List.mem_map] at hrl
      obtain ⟨f, _, rfl⟩ := hrl
      rfl
    · simp only [entityRecordsOf, List.mem_flatten, List.mem_map] at hr
      obtain ⟨l, ⟨ef, _, rfl⟩, hrl⟩ := hr
      simp only [List.mem_map] at hrl
      obtain ⟨f, _, rfl⟩ := hrl
      rfl

/-! ## Claim C6 -/

/-- Claim C6, counterexample. A decoded sector whose root is *not* a compound
but a list — a shape the claim assigns to the raw-sector fallback — is not
handled by the fallback at all: its compound items are iterated as entities,
and a matching tag inside one is reported with that entity's extracted type
(`"minecraft:cow"` here) and position marker, not as a generic
`"RawSectorSearch"` with unknown type and position. -/
theorem c6_counterexample :
    processSector "f.mca" ⟨some "id", none⟩ 0 0
        (.listTag none [.compound none [.scalar (some "id") (.vStr "minecraft:cow")]]) =
      ([("f.mca", "Sector[0,0]", "minecraft:cow", "N/A_Pos",
         "Sector[0,0][0].id", "id", "minecraft:cow")], false) := by rfl

/-- Claim C6, amended. For a *compound* sector root, whenever the `Entities`
entry is absent, falsy (e.g. an empty list) or not a list, the extractor
falls back to running the tag matcher directly on the raw sector root and
marks every resulting finding `"RawSectorSearch"` with position `"N/A"`.
(A list-rooted sector is instead iterated entity by entity, and any other
root yields no findings.) -/
theorem c6_amended_raw_sector_fallback (fileName : String) (c : SearchCriteria)
    (x z : Nat) (nm : Option String) (cs : List NbtTag)
    (h : truthyList (pyGet (NbtTag.compound nm cs) "Entities") = false) :
    processSector fileName c x z (NbtTag.compound nm cs) =
      (rawSectorRecords fileName ("Sector[" ++ toString x ++ "," ++ toString z ++ "]")
        c (NbtTag.compound nm cs), false) := by
  unfold processSector
  cases hg : pyGet (NbtTag.compound nm cs) "Entities" with
  | none => simp [hg]
  | some el =>
    rw [hg] at h
    simp only [truthyList] at h
    simp [hg, h]

/-- Witness for C6's amended fallback at a concrete `Entities`-less root. -/
theorem c6_amended_raw_sector_fallback_witness :
    processSector "f.mca" ⟨some "id", none⟩ 0 0
        (NbtTag.compound none [.scalar (some "id") (.vStr "v")]) =
      (rawSectorRecords "f.mca" ("Sector[" ++ toString 0 ++ "," ++ toString 0 ++ "]")
        ⟨some "id", none⟩ (NbtTag.compound none [.scalar (some "id") (.vStr "v")]), false) :=
  c6_amended_raw_sector_fallback "f.mca" ⟨some "id", none⟩ 0 0 none
    [.scalar (some "id") (.vStr "v")] (by decide)

/-! ## Claim C7 -/

/-- Claim C7, counterexample. A block entity whose `x`, `y`, `z` children are
non-empty *compounds* — not scalars — still passes the truthiness-plus-
`hasattr` guard (every tag object has a `.value` attribute, `None` for
containers), so the coordinates are formatted from those `None` values as
`"X:None, Y:None, Z:None"` instead of being reported as `"N/A"` as the
claim requires for every non-scalar case. -/
theorem c7_counterexample :
    extractBlockCoords
      (.compound none [
        .listTag (some "block_entities") [
          .compound none [
            .compound (some "x") [.scalar (some "k") (.vInt 1)],
            .compound (some "y") [.scalar (some "k") (.vInt 2)],
            .compound (some "z") [.scalar (some "k") (.vInt 3)],
            .scalar (some "id") (.vStr "minecraft:chest")]]])
      "Chunk[0,0].block_entities[0].id" = "X:None, Y:None, Z:None" := by rfl

/-- Claim C7, amended. For every region finding: either the path pattern, the
candidate block-entity list, the index, the element's compound-ness or the
truthiness of its `x`/`y`/`z` children fails and the coordinates are
`"N/A"`; or the referenced element is a compound with three *truthy*
children named `x`, `y`, `z` — of any tag kind, not only scalars — and the
coordinates are `X:/Y:/Z:` of the stringified `.value` of each child
(`"None"` for containers).  Failure to resolve coordinates never discards a
finding: the records of a chunk project back onto exactly the matcher's
findings. -/
theorem c7_amended_block_coords :
    (∀ (chunk : NbtTag) (p : String),
      (∃ bn i nm its be s,
        regexSearchBE p = some (bn, i) ∧
        chunk.isCompound = true ∧
        beCandidate chunk bn = some (NbtTag.listTag nm its) ∧
        its.get? i = some be ∧
        be.isCompound = true ∧
        coordsOfBlockEntity be = some s ∧
        extractBlockCoords chunk p = s) ∨
      extractBlockCoords chunk p = "N/A") ∧
    (∀ (be : NbtTag) (s : String),
      coordsOfBlockEntity be = some s ↔
        ∃ xt yt zt,
          pyGet be "x" = some xt ∧ pyGet be "y" = some yt ∧ pyGet be "z" = some zt ∧
          (pyTruthy xt && pyTruthy yt && pyTruthy zt) = true ∧
          s = "X:" ++ pyStrValue xt ++ ", Y:" ++ pyStrValue yt ++ ", Z:" ++ pyStrValue zt) ∧
    (∀ (fileName : String) (chunk : NbtTag) (x z : Nat) (c : SearchCriteria),
      (chunkRecords fileName chunk x z c).map
          (fun r => (r.2.2.2.1, r.2.2.2.2.1, r.2.2.2.2.2)) =
        find_nbt_tags_recursive chunk c ("Chunk[" ++ toString x ++ "," ++ toString z ++ "]")) := by
  refine ⟨?_, ?_, ?_⟩
  · intro chunk p
    unfold extractBlockCoords
    split
    · right; rfl
    · next bn i h1 =>
      split
      · next h2 =>
        split
        · next nm its h3 =>
          split
          · next be h4 =>
            split
            · next h5 =>
              split
              · next s h6 =>
                left
                exact ⟨bn, i, nm, its, be, s, h1, h2, h3, h4, h5, h6, rfl⟩
              · right; rfl
            · right; rfl
          · right; rfl
        · right; rfl
      · right; rfl
  · intro be s
    constructor
    · intro h
      unfold coordsOfBlockEntity at h
      split at h
      · next xt yt zt hx hy hz =>
        split at h
        · next ht => exact ⟨xt, yt, zt, hx, hy, hz, ht, (Option.some_inj.mp h).symm⟩
        · exact absurd h (by simp)
      · exact absurd h (by simp)
    · rintro ⟨xt, yt, zt, hx, hy, hz, ht, rfl⟩
      unfold coordsOfBlockEntity
      rw [hx, hy, hz]
      simp [ht]
  · intro fileName chunk x z c
    simp only [chunkRecords, List.map_map]
    exact List.map_id _
